import Mathlib

/-!
Verification of the gloria HTTP client library.

This file shallowly embeds the request construction, dispatch and response
resolution pipeline of the library: the builder's URL and map setters, the
dynamic-route substitution of `SetRequest`, the path splitting of
`urlSegments`, the URL assembly of `parseFullURLPath`, and the `Send`
state machine with its exception model.  External collaborators (the HTTP
transport, the JSON codec, the hooks the user registers) are modelled by an
environment record that supplies their observable results for one execution.
Go strings are modelled by `String` (or `List Char` where character-level
reasoning is needed), Go `error` values by an optional message, and Go panics
by `Except.error`.
-/

namespace Gloria

/-- A Go `error` value, identified by its message; `Option GoError` models a
possibly-nil error. -/
abbrev GoError := String

/-- `isEmptyString` from the source: a string counts as empty when it is `""`
or the placeholder `"-"`. -/
def isEmptyString (s : String) : Bool :=
  s == "" || s == "-"

/-- `QueryMethods`: the fixed list of supported HTTP verbs. -/
def queryMethods : List String :=
  ["GET", "POST", "PUT", "DELETE", "PATCH", "HEAD", "OPTIONS"]

/-- `containsMethod`: the linear scan of `QueryMethods`. -/
def containsMethod (s : String) : Bool :=
  queryMethods.any (fun str => s == str)

/-- Go `strings.ToUpper`, character-wise; `Char.toUpper` agrees with it on
the ASCII strings method names are made of. -/
def toUpperStr (s : String) : String :=
  ⟨s.data.map Char.toUpper⟩

/-- `SetMethod`: uppercases its argument and validates it against the verb
set; an unrecognized verb panics (modelled as `Except.error`), otherwise the
uppercased verb is stored in `Meta.Method`. -/
def setMethodModel (method : String) : Except String String :=
  if containsMethod (toUpperStr method) then Except.ok (toUpperStr method)
  else Except.error "Must choose one of GET, POST, PUT, DELETE, PATCH, HEAD, OPTIONS"

/-- The panic message of the unset-method guard in `createRequest`. -/
def incompleteRequestMsg : String :=
  "An incomplete request, must set the request method."

/-- The guard at the top of `createRequest`: an unset method (empty string or
the placeholder) panics with an incomplete-request error. -/
def createRequestMethodCheck (method : String) : Except String Unit :=
  if isEmptyString method then Except.error incompleteRequestMsg
  else Except.ok ()

/-- Go `strings.Replace(s, pat, rep, 1)` on character lists: replace the first
occurrence of `pat` in `s` by `rep`; `s` is unchanged when `pat` does not
occur. -/
def replaceFirst (pat rep : List Char) : List Char → List Char
  | [] => if pat.isPrefixOf ([] : List Char) then rep else []
  | c :: rest =>
    if pat.isPrefixOf (c :: rest) then rep ++ (c :: rest).drop pat.length
    else c :: replaceFirst pat rep rest

/-- The dynamic-routing `switch` of `SetRequest`: dispatch on the number of
positional path parameters.  Zero parameters keep the path; one substitutes
`:id`; two substitute `:id` then `:sid`; exactly three panic.  With four or
more parameters no `case` of the Go `switch` matches, so `tempPath` keeps its
zero value `""`. -/
def setRequestPath (path : List Char) (pathParams : List (List Char)) :
    Except String (List Char) :=
  match pathParams with
  | [] => Except.ok path
  | [a] => Except.ok (replaceFirst ":id".toList a path)
  | [a, b] => Except.ok (replaceFirst ":sid".toList b (replaceFirst ":id".toList a path))
  | [_, _, _] =>
    Except.error "There are too many dynamic routing parameters, which are not supported for now!"
  | _ :: _ :: _ :: _ :: _ => Except.ok []

/-- Go `strings.Split(s, "/")` on character lists. -/
def splitSlash : List Char → List (List Char)
  | [] => [[]]
  | c :: rest =>
    if c = '/' then [] :: splitSlash rest
    else
      match splitSlash rest with
      | s :: ss => (c :: s) :: ss
      | [] => [[c]]

/-- Go `strings.Join(segs, "/")` on character lists. -/
def joinSlash : List (List Char) → List Char
  | [] => []
  | [s] => s
  | s :: t :: rest => s ++ '/' :: joinSlash (t :: rest)

/-- The base-path / endpoint pair produced by `urlSegments`. -/
structure RawUrlPath where
  baseURI : List Char
  endpoint : List Char
deriving DecidableEq, Repr

/-- The path-splitting logic of `urlSegments`, taking the already-parsed path
component of the URL: both fields start as the root `"/"`; when the split on
`"/"` has exactly two pieces the whole path becomes the endpoint; when it has
more, the first piece (after the leading empty piece) is appended to the
base path and the remaining pieces are rejoined into the endpoint. -/
def urlSegmentsPath (path : List Char) : RawUrlPath :=
  let pathSegments := splitSlash path
  if pathSegments.length = 2 then
    { baseURI := ['/'], endpoint := path }
  else if 2 < pathSegments.length then
    { baseURI := '/' :: pathSegments.getD 1 [],
      endpoint := '/' :: joinSlash (pathSegments.drop 2) }
  else
    { baseURI := ['/'], endpoint := ['/'] }

/-- A Go `map[string]string`, modelled as an association list; the mapping it
denotes is given by `lookupKey`.  Lists built by the setter models never hold
a key twice. -/
abbrev SMap := List (String × String)

/-- The value a string map associates to a key. -/
def lookupKey (m : SMap) (k : String) : Option String :=
  match m with
  | [] => none
  | (k1, v1) :: rest => if k1 = k then some v1 else lookupKey rest k

/-- The Go assignment `m[key] = value`: overwrite the key in place when
present, append it otherwise. -/
def setKV (m : SMap) (k v : String) : SMap :=
  match m with
  | [] => [(k, v)]
  | (k1, v1) :: rest => if k1 = k then (k, v) :: rest else (k1, v1) :: setKV rest k v

/-- The merge loop `for key, value := range tempParams { m[key] = value }`. -/
def mergeInto (m new : SMap) : SMap :=
  new.foldl (fun acc kv => setKV acc kv.1 kv.2) m

/-- `SetQueryParams` acting on the (already string-coerced) parameter map:
wholesale replacement when the current map is empty, key-by-key merge
otherwise.  The heterogeneous input has been passed through `convertToSMap`,
which coerces values key-wise and preserves the key set. -/
def setQueryParamsModel (cur new : SMap) : SMap :=
  if cur.isEmpty then new else mergeInto cur new

/-- `SetHeaders` acting on the header `extra` map: the same replace-or-merge
logic as `SetQueryParams`. -/
def setHeadersModel (cur new : SMap) : SMap :=
  if cur.isEmpty then new else mergeInto cur new

/-- A string map has each key at most once. -/
def keysNodup (m : SMap) : Prop :=
  m.Pairwise (fun a b => a.1 ≠ b.1)

instance (m : SMap) : Decidable (keysNodup m) := by
  unfold keysNodup
  infer_instance

/-- The four URL components accumulated by `SetURL`. -/
structure UrlParts where
  scheme : String
  host : String
  baseURI : String
  endpoint : String
deriving DecidableEq, Repr

/-- Insertion of one pair into a key-sorted association list. -/
def insertSorted (kv : String × String) : SMap → SMap
  | [] => [kv]
  | p :: rest => if kv.1 ≤ p.1 then kv :: p :: rest else p :: insertSorted kv rest

/-- Key-sorting of an association list. -/
def sortByKey : SMap → SMap
  | [] => []
  | kv :: rest => insertSorted kv (sortByKey rest)

/-- Query-string encoding for `url.Values.Encode()` on string-valued
parameters: `k=v` pairs joined by `&`, keys in ascending order.
Percent-escaping is not modelled; it is used here only on values that need
no escaping. -/
def encodeQueryParams (params : SMap) : String :=
  String.intercalate "&" ((sortByKey params).map (fun kv => kv.1 ++ "=" ++ kv.2))

/-- `parseFullURLPath`: computes `Meta.Url` from the stored URL parts and
query parameters.  The local `urlPath` is only assigned when `Meta.Url` is
still empty — otherwise it keeps its zero value `""` — and the final `switch`
unconditionally stores `urlPath` (plus any query string) back into
`Meta.Url`. -/
def parseFullURLPath (metaUrl : String) (u : UrlParts) (params : SMap) : String :=
  let urlPath :=
    if isEmptyString metaUrl then
      if u.baseURI = "/" then u.scheme ++ "://" ++ u.host ++ "" ++ u.endpoint
      else u.scheme ++ "://" ++ u.host ++ u.baseURI ++ u.endpoint
    else ""
  match params.length with
  | 0 => urlPath
  | _ + 1 => urlPath ++ "?" ++ encodeQueryParams params

/-- The call sites inside `Send` and `createRequest` that stamp
`Exception.CodeLocation` via `fileLocation`; `none` models the empty
location of a fresh `Exception`. -/
inductive CodeSite where
  | preHook
  | marshalBody
  | newRequest
  | doRequest
  | closeBody
  | postHook
  | readBody
  | emptyBody
  | decodeBody
  | businessStatus
deriving DecidableEq, Repr

/-- The `Exception` record of the client: code location, transport-class
error, business-class failure reason, timestamp. -/
structure Exception where
  codeLocation : Option CodeSite
  panicError : Option GoError
  failureReason : String
  occurrenceTime : Int
deriving DecidableEq, Repr

/-- The zero `Exception` installed by the constructors (`&Exception{}`). -/
def Exception.empty : Exception :=
  { codeLocation := none, panicError := none, failureReason := "", occurrenceTime := 0 }

/-- No exception: `PanicError` nil and `FailureReason` empty. -/
def Exception.isNone (e : Exception) : Prop :=
  e.panicError = none ∧ e.failureReason = ""

/-- A transport-class exception: `PanicError` non-nil. -/
def Exception.isTransport (e : Exception) : Prop :=
  e.panicError ≠ none

/-- A business-class exception: `FailureReason` non-empty with `PanicError`
nil. -/
def Exception.isBusiness (e : Exception) : Prop :=
  e.failureReason ≠ "" ∧ e.panicError = none

/-- A transport-class exception record as built at the failure sites of the
pipeline: code location, the error, the occurrence timestamp. -/
def transportExc (site : CodeSite) (e : GoError) (now : Int) : Exception :=
  { codeLocation := some site, panicError := some e, failureReason := "", occurrenceTime := now }

/-- The business-class exception record built when the response status is not
200: code location, the envelope message as failure reason, the timestamp. -/
def businessExc (msg : String) (now : Int) : Exception :=
  { codeLocation := some CodeSite.businessStatus, panicError := none,
    failureReason := msg, occurrenceTime := now }

/-- The error stored when the reported response content length is zero. -/
def emptyBodyErr : GoError := "response body length is 0"

/-- The `{code, msg, data}` response envelope. -/
structure RESTFulResp (T : Type) where
  code : Int
  msg : String
  data : T
deriving DecidableEq, Repr

/-- The fields of `Client` that the dispatch pipeline reads or writes. -/
structure ClientState (T : Type) where
  metaMethod : String
  isRestMode : Bool
  payloadEmpty : Bool
  exception : Exception
  result : RESTFulResp T
deriving DecidableEq, Repr

/-- The observable behaviour of the external collaborators during one
execution of `Send`: the error each registered hook returns (in registration
order), the codec and transport results, the response metadata, and the
timestamp used for `time.Now().Unix()`.  `decodeEnvelope` and `decodeData`
are the results of running the configured codec over the whole body that was
read. -/
structure SendEnv (T : Type) where
  preHookResults : List (Option GoError)
  marshalError : Option GoError
  newRequestError : Option GoError
  doError : Option GoError
  postHookResults : List (Option GoError)
  readError : Option GoError
  body : List Nat
  contentLength : Int
  status : Int
  closeError : Option GoError
  decodeEnvelope : Except GoError (RESTFulResp T)
  decodeData : Except GoError T
  now : Int

/-- The outcome of one `Send`: the final client state, whether the wire
request was materialized (`createRequest` ran) and whether the transport was
invoked (`HttpClient.Do` was called). -/
structure SendOutcome (T : Type) where
  client : ClientState T
  materialized : Bool
  dispatched : Bool
deriving DecidableEq, Repr

/-- The first non-nil error in a hook-result list, mirroring the
abort-on-first-failure loops over `beforeRequest` and `afterResponse`. -/
def firstError : List (Option GoError) → Option GoError
  | [] => none
  | none :: rest => firstError rest
  | some e :: _ => some e

/-- The deferred `resp.Body.Close()` handler registered after a successful
transport call: when closing fails it overwrites the exception with a
transport-class record at function exit. -/
def applyClose {T : Type} (env : SendEnv T) (st : ClientState T) : ClientState T :=
  match env.closeError with
  | some e => { st with exception := transportExc CodeSite.closeBody e env.now }
  | none => st

/-- `createRequest`, restricted to the effects visible to the dispatch
claims: the unset-method panic, and the serialization / request-construction
failures that store a transport-class exception and return early.  URL,
header, auth and cookie assembly are omitted here as they touch neither
`Exception` nor `Result` (the URL computation is modelled separately by
`parseFullURLPath`).  The Go caller ignores the early returns: `Send`
continues into the transport call either way. -/
def createRequestModel {T : Type} (st : ClientState T) (env : SendEnv T) :
    Except String (ClientState T) :=
  if isEmptyString st.metaMethod then Except.error incompleteRequestMsg
  else if st.payloadEmpty then
    match env.newRequestError with
    | some e => Except.ok { st with exception := transportExc CodeSite.newRequest e env.now }
    | none => Except.ok st
  else
    match env.marshalError with
    | some e => Except.ok { st with exception := transportExc CodeSite.marshalBody e env.now }
    | none =>
      match env.newRequestError with
      | some e => Except.ok { st with exception := transportExc CodeSite.newRequest e env.now }
      | none => Except.ok st

/-- The decode step of `Send`: in enveloped (rest) mode the whole body is
unmarshalled into the `{code, msg, data}` envelope; in raw mode it is
unmarshalled into `Result.Data` only, leaving `code` and `msg` untouched. -/
def decodeStep {T : Type} (st : ClientState T) (env : SendEnv T) :
    Except GoError (ClientState T) :=
  if st.isRestMode then
    match env.decodeEnvelope with
    | Except.ok e => Except.ok { st with result := e }
    | Except.error er => Except.error er
  else
    match env.decodeData with
    | Except.ok d => Except.ok { st with result := { st.result with data := d } }
    | Except.error er => Except.error er

/-- The tail of `Send` after a successful transport call (the deferred body
close is registered at this point): post-hooks in order, body read, the
`length == 0` check against the reported content length, the mode-dependent
decode, and the business-failure classification against status 200.  Every
exit applies the deferred close handler. -/
def afterDoModel {T : Type} (st1 : ClientState T) (env : SendEnv T) : ClientState T :=
  match firstError env.postHookResults with
  | some e => applyClose env { st1 with exception := transportExc CodeSite.postHook e env.now }
  | none =>
    match env.readError with
    | some e => applyClose env { st1 with exception := transportExc CodeSite.readBody e env.now }
    | none =>
      if env.contentLength = 0 then
        applyClose env { st1 with exception := transportExc CodeSite.emptyBody emptyBodyErr env.now }
      else
        match decodeStep st1 env with
        | Except.error e =>
          applyClose env { st1 with exception := transportExc CodeSite.decodeBody e env.now }
        | Except.ok st2 =>
          if env.status = 200 then applyClose env st2
          else applyClose env { st2 with exception := businessExc st2.result.msg env.now }

/-- `Send`: pre-hooks in registration order (first failure aborts before any
materialization), request materialization, the transport call, then
`afterDoModel`.  A Go panic escaping `Send` is `Except.error`. -/
def sendModel {T : Type} (st : ClientState T) (env : SendEnv T) :
    Except String (SendOutcome T) :=
  match firstError env.preHookResults with
  | some e =>
    Except.ok ⟨{ st with exception := transportExc CodeSite.preHook e env.now }, false, false⟩
  | none =>
    match createRequestModel st env with
    | Except.error msg => Except.error msg
    | Except.ok st1 =>
      match env.doError with
      | some e =>
        Except.ok ⟨{ st1 with exception := transportExc CodeSite.doRequest e env.now }, true, true⟩
      | none => Except.ok ⟨afterDoModel st1 env, true, true⟩

/-- The exception shapes the pipeline can produce: never both a transport
error and a business failure reason at once. -/
def excOK (x : Exception) : Prop :=
  x.panicError = none ∨ x.failureReason = ""

/-- A fresh enveloped-mode client as produced by `New`: zero exception, zero
envelope, no payload. -/
def freshClient : ClientState Bool :=
  { metaMethod := "GET", isRestMode := true, payloadEmpty := true,
    exception := Exception.empty, result := { code := 0, msg := "", data := false } }

/-- A fresh raw-mode client as produced by `NewHTTP`. -/
def freshHttpClient : ClientState Bool :=
  { freshClient with isRestMode := false }

/-- An execution environment in which every collaborator succeeds: no hook
errors, a 200 response with a two-byte body, and a codec that decodes it. -/
def okEnv : SendEnv Bool :=
  { preHookResults := [], marshalError := none, newRequestError := none,
    doError := none, postHookResults := [], readError := none,
    body := [123, 125], contentLength := 2, status := 200, closeError := none,
    decodeEnvelope := Except.ok { code := 0, msg := "success", data := true },
    decodeData := Except.ok true, now := 1700000000 }

/-- The outcome of `sendModel freshClient okEnv`. -/
def okOutcome : SendOutcome Bool :=
  ⟨{ freshClient with result := { code := 0, msg := "success", data := true } }, true, true⟩

/-- An environment whose transport reports an unknown content length (`-1`,
as Go `net/http` does for chunked responses) while the body read yields zero
bytes, and whose configured codec accepts the empty input. -/
def zeroByteBodyEnv : SendEnv Bool :=
  { okEnv with
    body := [], contentLength := -1,
    decodeEnvelope := Except.ok { code := 0, msg := "", data := true },
    decodeData := Except.ok true }

/-- The outcome of `sendModel freshHttpClient zeroByteBodyEnv`. -/
def zeroByteBodyOutcome : SendOutcome Bool :=
  ⟨{ freshHttpClient with result := { code := 0, msg := "", data := true } }, true, true⟩

/-- An environment reporting content length zero on a 404 response. -/
def zeroLengthEnv : SendEnv Bool :=
  { okEnv with contentLength := 0, status := 404 }

/-- An environment whose second pre-hook fails. -/
def preHookFailEnv : SendEnv Bool :=
  { okEnv with preHookResults := [none, some "signature computation failed"] }

/-- An environment with a decodable body on a 404 response. -/
def notFoundEnv : SendEnv Bool :=
  { okEnv with
    status := 404,
    decodeEnvelope := Except.ok { code := 40400, msg := "resource not found", data := true } }

/-- The outcome of `sendModel freshClient notFoundEnv`. -/
def notFoundOutcome : SendOutcome Bool :=
  ⟨{ freshClient with
      exception := businessExc "resource not found" 1700000000,
      result := { code := 40400, msg := "resource not found", data := true } }, true, true⟩

/-- The outcome of `sendModel freshClient zeroLengthEnv`. -/
def zeroLengthOutcome : SendOutcome Bool :=
  ⟨{ freshClient with exception := transportExc CodeSite.emptyBody emptyBodyErr 1700000000 },
    true, true⟩

/-- A client whose request method was never set. -/
def noMethodClient : ClientState Bool :=
  { freshClient with metaMethod := "" }

/-- The outcome of `sendModel freshClient preHookFailEnv`. -/
def preHookFailOutcome : SendOutcome Bool :=
  ⟨{ freshClient with
      exception := transportExc CodeSite.preHook "signature computation failed" 1700000000 },
    false, false⟩

/-!  Theorems.  -/

/-- C5: evaluation of `parseFullURLPath` at a client whose `Meta.Url` was
pre-assigned a non-empty value.  The guard skips the recomputation, so the
local `urlPath` keeps its zero value, and the final `switch` then stores that
empty string into `Meta.Url`: the pre-assigned URL is clobbered rather than
used unchanged.  With `Meta.Url` empty the URL is computed from the parts as
specified. -/
theorem parseFullURLPath_preset_url_clobbered :
    parseFullURLPath "http://example.com/api" ⟨"https", "example.org", "/v1", "/users"⟩ [] = "" ∧
    parseFullURLPath "http://example.com/api" ⟨"https", "example.org", "/v1", "/users"⟩
      [("limit", "20")] = "?limit=20" ∧
    parseFullURLPath "" ⟨"https", "example.org", "/v1", "/users"⟩ [] =
      "https://example.org/v1/users" :=
  ⟨rfl, rfl, rfl⟩

/-- C7: the dynamic-routing dispatch of `SetRequest`.  One value substitutes
`:id` and two values substitute `:id` then `:sid`, but only a call with
exactly three positional values panics: with four (or more) values no `case`
of the Go `switch` matches, the panic is skipped, and the path silently
becomes the empty string. -/
theorem setRequest_route_params_dispatch :
    setRequestPath "/users/:id".toList ["123".toList] = Except.ok "/users/123".toList ∧
    setRequestPath "/users/:id/:sid".toList ["123".toList, "456".toList] =
      Except.ok "/users/123/456".toList ∧
    setRequestPath "/users/:id".toList ["1".toList, "2".toList, "3".toList] =
      Except.error "There are too many dynamic routing parameters, which are not supported for now!" ∧
    setRequestPath "/users/:id".toList ["1".toList, "2".toList, "3".toList, "4".toList] =
      Except.ok [] :=
  ⟨rfl, rfl, rfl, rfl⟩

/-- `splitSlash` of a string with no slash is the single piece. -/
theorem splitSlash_no_slash : ∀ (s : List Char), '/' ∉ s → splitSlash s = [s]
  | [], _ => rfl
  | c :: rest, h => by
    have hc : ¬ c = '/' := fun hcc => h (hcc ▸ List.mem_cons_self c rest)
    have hr : '/' ∉ rest := fun hm => h (List.mem_cons_of_mem c hm)
    simp only [splitSlash, if_neg hc, splitSlash_no_slash rest hr]

/-- `splitSlash` peels a slash-free prefix before a slash off as one piece. -/
theorem splitSlash_append_slash : ∀ (s t : List Char), '/' ∉ s →
    splitSlash (s ++ '/' :: t) = s :: splitSlash t
  | [], t, _ => by simp [splitSlash]
  | c :: s, t, h => by
    have hc : ¬ c = '/' := fun hcc => h (hcc ▸ List.mem_cons_self c s)
    have hs : '/' ∉ s := fun hm => h (List.mem_cons_of_mem c hm)
    have ih := splitSlash_append_slash s t hs
    simp only [List.cons_append, splitSlash, if_neg hc, List.append_eq, ih]

/-- `splitSlash` is a left inverse of `joinSlash` on nonempty lists of
slash-free pieces. -/
theorem splitSlash_joinSlash : ∀ (segs : List (List Char)), segs ≠ [] →
    (∀ s ∈ segs, '/' ∉ s) → splitSlash (joinSlash segs) = segs
  | [], hne, _ => absurd rfl hne
  | [s], _, h => by
    simpa only [joinSlash] using splitSlash_no_slash s (h s (List.mem_singleton.mpr rfl))
  | s :: t :: rest, _, h => by
    have hs : '/' ∉ s := h s (List.mem_cons_self s (t :: rest))
    have htail : ∀ x ∈ t :: rest, '/' ∉ x := fun x hx => h x (List.mem_cons_of_mem s hx)
    simp only [joinSlash, splitSlash_append_slash s (joinSlash (t :: rest)) hs,
      splitSlash_joinSlash (t :: rest) (List.cons_ne_nil t rest) htail]

/-- C8: the base-path / endpoint law of `urlSegments`.  For a path built from
one slash-free segment after the leading slash, the base path is the root and
the endpoint is the whole path; for two or more segments, the base path is
`/` plus the first segment and the endpoint is `/` plus the remaining
segments rejoined with `/`. -/
theorem urlSegments_split_law (segs : List (List Char)) (hne : segs ≠ [])
    (h : ∀ s ∈ segs, '/' ∉ s) :
    (segs.length = 1 →
      urlSegmentsPath ('/' :: joinSlash segs) =
        { baseURI := ['/'], endpoint := '/' :: joinSlash segs }) ∧
    (2 ≤ segs.length →
      urlSegmentsPath ('/' :: joinSlash segs) =
        { baseURI := '/' :: segs.headI, endpoint := '/' :: joinSlash segs.tail }) := by
  have hsplit : splitSlash ('/' :: joinSlash segs) = [] :: segs := by
    have : splitSlash ('/' :: joinSlash segs) = [] :: splitSlash (joinSlash segs) := by
      simp [splitSlash]
    rw [this, splitSlash_joinSlash segs hne h]
  constructor
  · intro hlen
    rcases segs with _ | ⟨a, _ | ⟨b, rest⟩⟩
    · exact absurd rfl hne
    · unfold urlSegmentsPath
      rw [hsplit]
      simp
    · simp at hlen
  · intro hlen
    rcases segs with _ | ⟨a, _ | ⟨b, rest⟩⟩
    · exact absurd rfl hne
    · simp at hlen
    · unfold urlSegmentsPath
      rw [hsplit]
      simp

/-- Witness for C8 at the concrete path `/a/b`. -/
theorem urlSegments_split_law_witness :
    (([['a'], ['b']] : List (List Char)) ≠ [] ∧ ∀ s ∈ ([['a'], ['b']] : List (List Char)), '/' ∉ s) ∧
    urlSegmentsPath ('/' :: joinSlash [['a'], ['b']]) =
      { baseURI := ['/', 'a'], endpoint := ['/', 'b'] } := by
  refine ⟨⟨by decide, by decide⟩, ?_⟩
  exact (urlSegments_split_law [['a'], ['b']] (by decide) (by decide)).2 (by decide)

/-- The Go map write `m[k] = v` changes the mapping exactly at `k`. -/
theorem lookupKey_setKV : ∀ (m : SMap) (k v q : String),
    lookupKey (setKV m k v) q = if k = q then some v else lookupKey m q
  | [], k, v, q => rfl
  | (k1, v1) :: rest, k, v, q => by
    by_cases h1 : k1 = k
    · subst h1
      simp only [setKV, if_pos rfl, lookupKey]
      by_cases h2 : k1 = q
      · simp [h2]
      · simp [h2]
    · simp only [setKV, if_neg h1, lookupKey]
      by_cases h2 : k1 = q
      · subst h2
        have hk : ¬ k = k1 := fun hh => h1 hh.symm
        simp [hk]
      · simp only [if_neg h2]
        exact lookupKey_setKV rest k v q

/-- A key absent from an association list looks up to `none`. -/
theorem lookupKey_eq_none : ∀ (m : SMap) (q : String), (∀ p ∈ m, p.1 ≠ q) →
    lookupKey m q = none
  | [], _, _ => rfl
  | (k1, v1) :: rest, q, h => by
    have h1 : k1 ≠ q := h (k1, v1) (List.mem_cons_self _ _)
    simp only [lookupKey, if_neg h1]
    exact lookupKey_eq_none rest q (fun p hp => h p (List.mem_cons_of_mem _ hp))

/-- The merge loop realizes the key-wise union with right priority. -/
theorem lookupKey_mergeInto : ∀ (new m : SMap) (q : String), keysNodup new →
    lookupKey (mergeInto m new) q =
      match lookupKey new q with
      | some v => some v
      | none => lookupKey m q
  | [], m, q, _ => rfl
  | (k1, v1) :: rest, m, q, h => by
    rcases (List.pairwise_cons.mp h) with ⟨hk1, hrest⟩
    have hfold : mergeInto m ((k1, v1) :: rest) = mergeInto (setKV m k1 v1) rest := rfl
    rw [hfold, lookupKey_mergeInto rest (setKV m k1 v1) q hrest]
    by_cases hq : k1 = q
    · subst hq
      have hnone : lookupKey rest k1 = none :=
        lookupKey_eq_none rest k1 (fun p hp => (hk1 p hp).symm)
      simp [hnone, lookupKey, lookupKey_setKV]
    · simp only [lookupKey, if_neg hq]
      cases hrq : lookupKey rest q with
      | some v => simp
      | none => simp [lookupKey_setKV, hq]

/-- C9: the bulk setters `SetQueryParams` and `SetHeaders` merge key-wise
with the new mapping taking priority (keys only in the old mapping keep their
value), and applying the same mapping twice gives the same mapping as
applying it once. -/
theorem bulk_setter_merge_law (m1 m2 : SMap) (q : String)
    (h1 : keysNodup m1) (h2 : keysNodup m2) :
    (lookupKey (setQueryParamsModel (setQueryParamsModel [] m1) m2) q =
      match lookupKey m2 q with
      | some v => some v
      | none => lookupKey m1 q) ∧
    (lookupKey (setHeadersModel (setHeadersModel [] m1) m2) q =
      match lookupKey m2 q with
      | some v => some v
      | none => lookupKey m1 q) ∧
    (lookupKey (setQueryParamsModel (setQueryParamsModel [] m1) m1) q =
      lookupKey (setQueryParamsModel [] m1) q) ∧
    (lookupKey (setHeadersModel (setHeadersModel [] m1) m1) q =
      lookupKey (setHeadersModel [] m1) q) := by
  have base : ∀ (n : SMap), setQueryParamsModel [] n = n := fun n => rfl
  have hmerge : ∀ (cur : SMap), lookupKey (if cur.isEmpty then m2 else mergeInto cur m2) q =
      match lookupKey m2 q with
      | some v => some v
      | none => lookupKey cur q := by
    intro cur
    cases cur with
    | nil =>
      simp only [List.isEmpty_nil, if_true]
      cases hm : lookupKey m2 q <;> simp [lookupKey, hm]
    | cons p rest =>
      simp only [List.isEmpty_cons, if_false, Bool.false_eq_true]
      exact lookupKey_mergeInto m2 (p :: rest) q h2
  have hidem : ∀ (cur : SMap), keysNodup cur →
      lookupKey (if cur.isEmpty then cur else mergeInto cur cur) q = lookupKey cur q := by
    intro cur hc
    cases cur with
    | nil => rfl
    | cons p rest =>
      simp only [List.isEmpty_cons, if_false, Bool.false_eq_true]
      rw [lookupKey_mergeInto (p :: rest) (p :: rest) q hc]
      cases hm : lookupKey (p :: rest) q <;> simp
  refine ⟨?_, ?_, ?_, ?_⟩
  · exact hmerge m1
  · exact hmerge m1
  · exact hidem m1 h1
  · exact hidem m1 h1

/-- Witness for C9 at concrete mappings. -/
theorem bulk_setter_merge_law_witness :
    keysNodup [("a", "1")] ∧ keysNodup [("a", "2"), ("b", "3")] ∧
    lookupKey (setHeadersModel (setHeadersModel [] [("a", "1")]) [("a", "2"), ("b", "3")]) "a" =
      some "2" := by
  refine ⟨by decide, by decide, ?_⟩
  have h := (bulk_setter_merge_law [("a", "1")] [("a", "2"), ("b", "3")] "a"
    (by decide) (by decide)).2.1
  simpa using h

/-- The close-failure handler only ever installs a transport-class record. -/
theorem excOK_applyClose {T : Type} (env : SendEnv T) (st : ClientState T)
    (h : excOK st.exception) : excOK (applyClose env st).exception := by
  unfold applyClose
  cases env.closeError with
  | some e => exact Or.inr rfl
  | none => exact h

/-- The close-failure handler does not touch `Result`. -/
theorem applyClose_result {T : Type} (env : SendEnv T) (st : ClientState T) :
    (applyClose env st).result = st.result := by
  unfold applyClose
  cases env.closeError <;> rfl

/-- A materialized request preserves `Result` and the mode, and only ever
adds a transport-class exception. -/
theorem createRequestModel_ok {T : Type} {st st1 : ClientState T} {env : SendEnv T}
    (h : createRequestModel st env = Except.ok st1) :
    st1.result = st.result ∧ st1.isRestMode = st.isRestMode ∧
    (st1.exception = st.exception ∨ ∃ site e, st1.exception = transportExc site e env.now) := by
  unfold createRequestModel at h
  split at h
  · simp at h
  · split at h
    · split at h
      · rename_i e heq
        simp only [Except.ok.injEq] at h
        subst h
        exact ⟨rfl, rfl, Or.inr ⟨CodeSite.newRequest, e, rfl⟩⟩
      · simp only [Except.ok.injEq] at h
        subst h
        exact ⟨rfl, rfl, Or.inl rfl⟩
    · split at h
      · rename_i e heq
        simp only [Except.ok.injEq] at h
        subst h
        exact ⟨rfl, rfl, Or.inr ⟨CodeSite.marshalBody, e, rfl⟩⟩
      · split at h
        · rename_i e heq
          simp only [Except.ok.injEq] at h
          subst h
          exact ⟨rfl, rfl, Or.inr ⟨CodeSite.newRequest, e, rfl⟩⟩
        · simp only [Except.ok.injEq] at h
          subst h
          exact ⟨rfl, rfl, Or.inl rfl⟩

/-- With a set method, materialization never panics. -/
theorem createRequestModel_ok_exists {T : Type} (st : ClientState T) (env : SendEnv T)
    (hm : isEmptyString st.metaMethod = false) :
    ∃ st1, createRequestModel st env = Except.ok st1 := by
  unfold createRequestModel
  simp only [hm, Bool.false_eq_true, if_false]
  split
  · split
    · exact ⟨_, rfl⟩
    · exact ⟨_, rfl⟩
  · split
    · exact ⟨_, rfl⟩
    · split
      · exact ⟨_, rfl⟩
      · exact ⟨_, rfl⟩

/-- A successful decode leaves the exception untouched. -/
theorem decodeStep_exception {T : Type} {st st2 : ClientState T} {env : SendEnv T}
    (h : decodeStep st env = Except.ok st2) : st2.exception = st.exception := by
  unfold decodeStep at h
  split at h
  · split at h
    · simp only [Except.ok.injEq] at h
      subst h
      rfl
    · simp at h
  · split at h
    · simp only [Except.ok.injEq] at h
      subst h
      rfl
    · simp at h

/-- Decode in enveloped mode replaces the whole envelope. -/
theorem decodeStep_rest {T : Type} {st : ClientState T} {env : SendEnv T}
    (hmode : st.isRestMode = true) {e : RESTFulResp T}
    (he : env.decodeEnvelope = Except.ok e) :
    decodeStep st env = Except.ok { st with result := e } := by
  simp [decodeStep, hmode, he]

/-- Decode in raw mode fills `Result.Data` only. -/
theorem decodeStep_raw {T : Type} {st : ClientState T} {env : SendEnv T}
    (hmode : st.isRestMode = false) {d : T}
    (hd : env.decodeData = Except.ok d) :
    decodeStep st env = Except.ok { st with result := { st.result with data := d } } := by
  simp [decodeStep, hmode, hd]

/-- Every exit of the post-transport phase keeps the exception well-shaped. -/
theorem afterDo_excOK {T : Type} (st1 : ClientState T) (env : SendEnv T)
    (h : excOK st1.exception) : excOK (afterDoModel st1 env).exception := by
  unfold afterDoModel
  split
  · exact excOK_applyClose _ _ (Or.inr rfl)
  · split
    · exact excOK_applyClose _ _ (Or.inr rfl)
    · split
      · exact excOK_applyClose _ _ (Or.inr rfl)
      · split
        · exact excOK_applyClose _ _ (Or.inr rfl)
        · rename_i st2 heq
          split
          · refine excOK_applyClose _ _ ?_
            rw [decodeStep_exception heq]
            exact h
          · exact excOK_applyClose _ _ (Or.inl rfl)

/-- Past passing pre-hooks and a successful transport call, the outcome is
the post-transport phase applied to the materialized state. -/
theorem sendModel_reach_afterDo {T : Type} {st : ClientState T} {env : SendEnv T}
    {out : SendOutcome T} (h : sendModel st env = Except.ok out)
    (hpre : firstError env.preHookResults = none) (hdo : env.doError = none) :
    ∃ st1, createRequestModel st env = Except.ok st1 ∧
      out = ⟨afterDoModel st1 env, true, true⟩ := by
  cases hcr : createRequestModel st env with
  | error msg => simp [sendModel, hpre, hcr] at h
  | ok st1 =>
    simp only [sendModel, hpre, hcr, hdo, Except.ok.injEq] at h
    exact ⟨st1, rfl, h.symm⟩

/-- Every `Send` that returns leaves a well-shaped exception. -/
theorem sendModel_excOK {T : Type} {st : ClientState T} {env : SendEnv T}
    {out : SendOutcome T} (h : sendModel st env = Except.ok out)
    (h0 : excOK st.exception) : excOK out.client.exception := by
  cases hpre : firstError env.preHookResults with
  | some e =>
    simp only [sendModel, hpre, Except.ok.injEq] at h
    rw [← h]
    exact Or.inr rfl
  | none =>
    cases hcr : createRequestModel st env with
    | error msg => simp [sendModel, hpre, hcr] at h
    | ok st1 =>
      have hst1 : excOK st1.exception := by
        rcases (createRequestModel_ok hcr).2.2 with heq | ⟨site, e, heq⟩
        · rw [heq]
          exact h0
        · rw [heq]
          exact Or.inr rfl
      cases hdo : env.doError with
      | some e =>
        simp only [sendModel, hpre, hcr, hdo, Except.ok.injEq] at h
        rw [← h]
        exact Or.inr rfl
      | none =>
        simp only [sendModel, hpre, hcr, hdo, Except.ok.injEq] at h
        rw [← h]
        exact afterDo_excOK st1 env hst1

/-- The three exception states are mutually exclusive and cover every
exception record. -/
theorem exception_state_cases (x : Exception) :
    (x.isNone ∧ ¬ x.isTransport ∧ ¬ x.isBusiness) ∨
    (x.isTransport ∧ ¬ x.isNone ∧ ¬ x.isBusiness) ∨
    (x.isBusiness ∧ ¬ x.isNone ∧ ¬ x.isTransport) := by
  unfold Exception.isNone Exception.isTransport Exception.isBusiness
  by_cases hp : x.panicError = none
  · by_cases hf : x.failureReason = ""
    · exact Or.inl ⟨⟨hp, hf⟩, fun hc => hc hp, fun hc => hc.1 hf⟩
    · exact Or.inr (Or.inr ⟨⟨hf, hp⟩, fun hc => hf hc.2, fun hc => hc hp⟩)
  · exact Or.inr (Or.inl ⟨hp, fun hc => hp hc.1, fun hc => hp hc.2⟩)

/-- C1: when `Send` returns, the client is in exactly one of three states —
no exception (`PanicError` nil and `FailureReason` empty), transport-class
(`PanicError` non-nil), or business-class (`FailureReason` non-empty with
`PanicError` nil) — and never has both a transport error and a failure
reason at once.  The hypothesis on the incoming exception is the zero record
every constructor installs. -/
theorem send_exception_trichotomy {T : Type} (st : ClientState T) (env : SendEnv T)
    (out : SendOutcome T) (h0 : st.exception = Exception.empty)
    (h : sendModel st env = Except.ok out) :
    ¬ (out.client.exception.panicError ≠ none ∧ out.client.exception.failureReason ≠ "") ∧
    ((out.client.exception.isNone ∧ ¬ out.client.exception.isTransport ∧
        ¬ out.client.exception.isBusiness) ∨
     (out.client.exception.isTransport ∧ ¬ out.client.exception.isNone ∧
        ¬ out.client.exception.isBusiness) ∨
     (out.client.exception.isBusiness ∧ ¬ out.client.exception.isNone ∧
        ¬ out.client.exception.isTransport)) := by
  have hx : excOK out.client.exception := by
    refine sendModel_excOK h ?_
    rw [h0]
    exact Or.inl rfl
  refine ⟨?_, exception_state_cases _⟩
  rintro ⟨hpne, hfne⟩
  rcases hx with hp | hf
  · exact hpne hp
  · exact hfne hf

/-- Witness for C1: a fresh client on an all-success execution. -/
theorem send_exception_trichotomy_witness :
    freshClient.exception = Exception.empty ∧
    sendModel freshClient okEnv = Except.ok okOutcome ∧
    (¬ (okOutcome.client.exception.panicError ≠ none ∧
          okOutcome.client.exception.failureReason ≠ "") ∧
     ((okOutcome.client.exception.isNone ∧ ¬ okOutcome.client.exception.isTransport ∧
          ¬ okOutcome.client.exception.isBusiness) ∨
      (okOutcome.client.exception.isTransport ∧ ¬ okOutcome.client.exception.isNone ∧
          ¬ okOutcome.client.exception.isBusiness) ∨
      (okOutcome.client.exception.isBusiness ∧ ¬ okOutcome.client.exception.isNone ∧
          ¬ okOutcome.client.exception.isTransport))) :=
  ⟨rfl, rfl, send_exception_trichotomy freshClient okEnv okOutcome rfl rfl⟩

/-- C2: for a `Send` that reaches the decode step, enveloped mode unmarshals
the whole body into the `{code, msg, data}` envelope, while raw mode
unmarshals it into `Result.Data` only, keeping `Result.Code` and
`Result.Msg` at their zero values. -/
theorem send_decode_by_mode {T : Type} (st : ClientState T) (env : SendEnv T)
    (out : SendOutcome T) (h : sendModel st env = Except.ok out)
    (hpre : firstError env.preHookResults = none)
    (hdo : env.doError = none)
    (hpost : firstError env.postHookResults = none)
    (hread : env.readError = none)
    (hlen : env.contentLength ≠ 0) :
    (st.isRestMode = true → ∀ e, env.decodeEnvelope = Except.ok e →
      out.client.result = e) ∧
    (st.isRestMode = false → st.result.code = 0 → st.result.msg = "" →
      ∀ d, env.decodeData = Except.ok d →
        out.client.result.data = d ∧ out.client.result.code = 0 ∧
        out.client.result.msg = "") := by
  obtain ⟨st1, hcr, hout⟩ := sendModel_reach_afterDo h hpre hdo
  obtain ⟨hres, hmode, _⟩ := createRequestModel_ok hcr
  subst hout
  constructor
  · intro hrest e he
    have hds : decodeStep st1 env = Except.ok { st1 with result := e } :=
      decodeStep_rest (hmode.trans hrest) he
    simp only [afterDoModel, hpost, hread, if_neg hlen, hds]
    by_cases hs : env.status = 200
    · simp [hs, applyClose_result]
    · simp [hs, applyClose_result]
  · intro hraw hcode hmsg d hd
    have hds : decodeStep st1 env =
        Except.ok { st1 with result := { st1.result with data := d } } :=
      decodeStep_raw (hmode.trans hraw) hd
    simp only [afterDoModel, hpost, hread, if_neg hlen, hds]
    by_cases hs : env.status = 200
    · simp [hs, applyClose_result, hres, hcode, hmsg]
    · simp [hs, applyClose_result, hres, hcode, hmsg]

/-- Witness for C2: a raw-mode client decoding a body on a 200 response. -/
theorem send_decode_by_mode_witness :
    sendModel freshHttpClient okEnv = Except.ok ⟨{ freshHttpClient with
      result := { code := 0, msg := "", data := true } }, true, true⟩ ∧
    okEnv.contentLength ≠ 0 ∧
    ({ freshHttpClient with
      result := { code := 0, msg := "", data := true } } : ClientState Bool).result.data = true := by
  have h := (send_decode_by_mode freshHttpClient okEnv
    ⟨{ freshHttpClient with result := { code := 0, msg := "", data := true } }, true, true⟩
    rfl rfl rfl rfl rfl (by decide)).2 rfl rfl rfl true rfl
  exact ⟨rfl, by decide, h.1⟩

/-- The first failing entry of a hook-result list is found in list order. -/
theorem firstError_append : ∀ (l1 l2 : List (Option GoError)) (e : GoError),
    (∀ x ∈ l1, x = none) → firstError (l1 ++ some e :: l2) = some e
  | [], _, _, _ => rfl
  | x :: rest, l2, e, h => by
    have hx : x = none := h x (List.mem_cons_self _ _)
    subst hx
    simp only [List.cons_append, firstError]
    exact firstError_append rest l2 e (fun y hy => h y (List.mem_cons_of_mem _ hy))

/-- C3: a failing pre-hook aborts `Send` before any wire activity: the hooks
before it all passed (they ran in registration order), its error is recorded
as a transport-class exception with code location and timestamp, and the
request is neither materialized nor dispatched. -/
theorem send_prehook_abort {T : Type} (st : ClientState T) (env : SendEnv T)
    (l1 l2 : List (Option GoError)) (e : GoError)
    (hl : env.preHookResults = l1 ++ some e :: l2)
    (hok : ∀ x ∈ l1, x = none) :
    sendModel st env =
      Except.ok ⟨{ st with exception := transportExc CodeSite.preHook e env.now },
        false, false⟩ ∧
    (transportExc CodeSite.preHook e env.now).panicError = some e ∧
    (transportExc CodeSite.preHook e env.now).failureReason = "" ∧
    (transportExc CodeSite.preHook e env.now).codeLocation = some CodeSite.preHook ∧
    (transportExc CodeSite.preHook e env.now).occurrenceTime = env.now := by
  have hfe : firstError env.preHookResults = some e := by
    rw [hl]
    exact firstError_append l1 l2 e hok
  exact ⟨by simp [sendModel, hfe], rfl, rfl, rfl, rfl⟩

/-- Witness for C3: the second registered pre-hook fails. -/
theorem send_prehook_abort_witness :
    preHookFailEnv.preHookResults = [none] ++ some "signature computation failed" :: [] ∧
    sendModel freshClient preHookFailEnv = Except.ok preHookFailOutcome :=
  ⟨rfl, (send_prehook_abort freshClient preHookFailEnv [none] []
    "signature computation failed" rfl (by decide)).1⟩

/-- C4: a successful enveloped decode on a non-200 status records a
business-class exception whose failure reason is the decoded envelope's
`msg`, with a timestamp, without aborting: the decoded envelope (data
included) is still in `Result` when `Send` returns. -/
theorem send_business_failure {T : Type} (st : ClientState T) (env : SendEnv T)
    (out : SendOutcome T) (e : RESTFulResp T)
    (h : sendModel st env = Except.ok out)
    (hpre : firstError env.preHookResults = none)
    (hdo : env.doError = none)
    (hpost : firstError env.postHookResults = none)
    (hread : env.readError = none)
    (hlen : env.contentLength ≠ 0)
    (hmode : st.isRestMode = true)
    (he : env.decodeEnvelope = Except.ok e)
    (hstatus : env.status ≠ 200)
    (hclose : env.closeError = none) :
    out.client.exception.failureReason = e.msg ∧
    out.client.exception.panicError = none ∧
    out.client.exception.codeLocation = some CodeSite.businessStatus ∧
    out.client.exception.occurrenceTime = env.now ∧
    out.client.result = e := by
  obtain ⟨st1, hcr, hout⟩ := sendModel_reach_afterDo h hpre hdo
  obtain ⟨hres, hmode1, _⟩ := createRequestModel_ok hcr
  subst hout
  have hds : decodeStep st1 env = Except.ok { st1 with result := e } :=
    decodeStep_rest (hmode1.trans hmode) he
  simp [afterDoModel, hpost, hread, if_neg hlen, hds, if_neg hstatus,
    applyClose, hclose, businessExc]

/-- Witness for C4: a 404 with a decodable envelope. -/
theorem send_business_failure_witness :
    (notFoundEnv.contentLength ≠ 0 ∧ notFoundEnv.status ≠ 200 ∧
     freshClient.isRestMode = true) ∧
    sendModel freshClient notFoundEnv = Except.ok notFoundOutcome ∧
    notFoundOutcome.client.exception.failureReason = "resource not found" ∧
    notFoundOutcome.client.exception.panicError = none ∧
    notFoundOutcome.client.result =
      { code := 40400, msg := "resource not found", data := true } := by
  have h := send_business_failure freshClient notFoundEnv notFoundOutcome
    { code := 40400, msg := "resource not found", data := true }
    rfl rfl rfl rfl rfl (by decide) rfl rfl (by decide) rfl
  exact ⟨⟨by decide, by decide, rfl⟩, rfl, h.1, h.2.1, h.2.2.2.2⟩

/-- C6 (amended): `Send` records the empty-body transport exception and
aborts before decoding, regardless of the response status code, exactly when
the transport-reported content length (`resp.ContentLength`) is zero; the
check does not look at the number of bytes actually read. -/
theorem send_zero_content_length_aborts {T : Type} (st : ClientState T) (env : SendEnv T)
    (out : SendOutcome T) (h : sendModel st env = Except.ok out)
    (hpre : firstError env.preHookResults = none)
    (hdo : env.doError = none)
    (hpost : firstError env.postHookResults = none)
    (hread : env.readError = none)
    (hlen : env.contentLength = 0)
    (hclose : env.closeError = none) :
    out.client.exception.panicError = some emptyBodyErr ∧
    out.client.exception.codeLocation = some CodeSite.emptyBody ∧
    out.client.exception.occurrenceTime = env.now ∧
    out.client.result = st.result := by
  obtain ⟨st1, hcr, hout⟩ := sendModel_reach_afterDo h hpre hdo
  obtain ⟨hres, _, _⟩ := createRequestModel_ok hcr
  subst hout
  simp [afterDoModel, hpost, hread, hlen, applyClose, hclose, hres, transportExc]

/-- Witness for C6's amended statement: reported content length zero on a
404 response. -/
theorem send_zero_content_length_aborts_witness :
    zeroLengthEnv.contentLength = 0 ∧ zeroLengthEnv.status = 404 ∧
    sendModel freshClient zeroLengthEnv = Except.ok zeroLengthOutcome ∧
    zeroLengthOutcome.client.exception.panicError = some emptyBodyErr ∧
    zeroLengthOutcome.client.result = freshClient.result := by
  have h := send_zero_content_length_aborts freshClient zeroLengthEnv zeroLengthOutcome
    rfl rfl rfl rfl rfl rfl rfl
  exact ⟨rfl, rfl, rfl, h.1, h.2.2.2⟩

/-- C6 counterexample: a round trip that reads a zero-byte body while the
transport reports an unknown content length (`-1`): `Send` does not record
the empty-body transport exception and does not abort before decoding — with
a codec that accepts the empty input it returns with no exception and a
decoded `Result.Data`. -/
theorem send_zero_byte_body_not_flagged :
    zeroByteBodyEnv.body = [] ∧
    sendModel freshHttpClient zeroByteBodyEnv = Except.ok zeroByteBodyOutcome ∧
    zeroByteBodyOutcome.client.exception.panicError = none ∧
    zeroByteBodyOutcome.client.result.data = true :=
  ⟨rfl, rfl, rfl, rfl⟩

/-- A validated verb is neither empty nor the placeholder. -/
theorem containsMethod_not_empty (u : String) (h : containsMethod u = true) :
    isEmptyString u = false := by
  simp only [containsMethod, queryMethods, List.any_eq_true] at h
  obtain ⟨x, hx, heq⟩ := h
  have hu : u = x := eq_of_beq heq
  subst hu
  simp only [List.mem_cons, List.not_mem_nil, or_false] at hx
  rcases hx with rfl | rfl | rfl | rfl | rfl | rfl | rfl <;> rfl

/-- `SetMethod` only stores verbs from the fixed set. -/
theorem setMethodModel_ok {m u : String} (h : setMethodModel m = Except.ok u) :
    containsMethod u = true := by
  unfold setMethodModel at h
  split at h
  · rename_i hc
    simp only [Except.ok.injEq] at h
    subst h
    exact hc
  · simp at h

/-- With a set method, `Send` never panics: every branch returns a client. -/
theorem sendModel_ok_exists {T : Type} (st : ClientState T) (env : SendEnv T)
    (hm : isEmptyString st.metaMethod = false) :
    ∃ out, sendModel st env = Except.ok out := by
  cases hpre : firstError env.preHookResults with
  | some e =>
    exact ⟨⟨{ st with exception := transportExc CodeSite.preHook e env.now }, false, false⟩,
      by simp [sendModel, hpre]⟩
  | none =>
    obtain ⟨st1, hcr⟩ := createRequestModel_ok_exists st env hm
    cases hdo : env.doError with
    | some e =>
      exact ⟨⟨{ st1 with exception := transportExc CodeSite.doRequest e env.now }, true, true⟩,
        by simp [sendModel, hpre, hcr, hdo]⟩
    | none =>
      exact ⟨⟨afterDoModel st1 env, true, true⟩, by simp [sendModel, hpre, hcr, hdo]⟩

/-- C10: `Send` on a client whose method was never set (empty string or the
placeholder `"-"`) panics with the incomplete-request error during request
materialization (once pre-hooks pass); when a valid method was stored by
`SetMethod`, that panic branch is unreachable and `Send` always returns. -/
theorem send_unset_method_panic_guard :
    (∀ (T : Type) (st : ClientState T) (env : SendEnv T),
      firstError env.preHookResults = none → isEmptyString st.metaMethod = true →
      sendModel st env = Except.error incompleteRequestMsg) ∧
    (∀ (T : Type) (m : String) (st : ClientState T) (env : SendEnv T),
      setMethodModel m = Except.ok st.metaMethod →
      ∃ out, sendModel st env = Except.ok out) := by
  constructor
  · intro T st env hpre hm
    simp [sendModel, hpre, createRequestModel, hm]
  · intro T m st env hset
    exact sendModel_ok_exists st env (containsMethod_not_empty _ (setMethodModel_ok hset))

/-- Witness for C10: an unset method panics; `SetMethod "get"` makes `Send`
return. -/
theorem send_unset_method_panic_guard_witness :
    (firstError okEnv.preHookResults = none ∧ isEmptyString noMethodClient.metaMethod = true ∧
     sendModel noMethodClient okEnv = Except.error incompleteRequestMsg) ∧
    (setMethodModel "get" = Except.ok freshClient.metaMethod ∧
     ∃ out, sendModel freshClient okEnv = Except.ok out) := by
  constructor
  · exact ⟨rfl, rfl, send_unset_method_panic_guard.1 Bool noMethodClient okEnv rfl rfl⟩
  · exact ⟨rfl, send_unset_method_panic_guard.2 Bool "get" freshClient okEnv rfl⟩

end Gloria
